import Mathlib

/-!
Verification of the EventStream / Observable core of the grx reactive-stream
library (repository RxGo-1), against its natural-language specification.

The repository provides two source files:
* `eventstream/eventstream.go` — the `EventStream` channel type with `Next`,
  `New` and `From`; embedded below directly from that source.
* the `observable` package's test file — the Observable implementation itself
  (Subscribe dispatch loop, Range, Start, …) is not among the sources, so
  those parts are modelled from the specification, as marked on each
  definition.

Machine integers: the Go code performs no arithmetic on emitters; `Range`
iterates over `int` values far from overflow, so `Int` is used directly.
Channels: a Go channel is modelled by its capacity, its buffered contents and
a closed flag; goroutine interleavings are collapsed to the producer-complete
state, which is the state every claim here quantifies over.
-/

namespace Grx

/-- The error value `errors.EndOfIteratorError` wrapped by
`eventstream.NewError`: the only error `EventStream.Next` ever constructs. -/
inductive StreamError where
  | endOfIterator : StreamError
deriving DecidableEq, Repr

/-- State of the Go channel `EventStream chan bases.Emitter` as seen by a
consumer once the producer goroutine has finished: the emitters pushed and not
yet received (in push order) and whether `close` has been executed.  Emitters
are opaque values of a type parameter `α`, as `bases.Emitter` is an interface
the eventstream package never inspects. -/
structure EventStream (α : Type) where
  queue : List α
  closed : Bool
deriving DecidableEq, Repr

/-- Definition `EventStream.Next` from eventstream.go:
```
func (evs EventStream) Next() (bases.Emitter, error) {
    if emitter, ok := <-evs; ok {
        return emitter, nil
    }
    return nil, NewError(errors.EndOfIteratorError)
}
```
A receive on a Go channel returns the next buffered value with `ok = true`
(even after `close`), returns the zero value with `ok = false` once the
channel is closed and drained, and blocks otherwise.  `none` models the
blocking receive; `some ((e, err), s)` models a completed call returning the
pair `(e, err)` and leaving the channel in state `s`. -/
def EventStream.Next (s : EventStream α) :
    Option ((Option α × Option StreamError) × EventStream α) :=
  match s.queue with
  | e :: rest => some ((some e, none), ⟨rest, s.closed⟩)
  | [] => if s.closed then some ((none, some .endOfIterator), s) else none

/-- What the producer side of a constructor left behind: the channel capacity
it allocated with `make`, the emitters its goroutine pushes (in push order),
and whether that goroutine executes `close`. -/
structure ProducerResult (α : Type) where
  cap : Nat
  pushed : List α
  closes : Bool
deriving DecidableEq, Repr

/-- Constructor `New` from eventstream.go:
```
func New(emitters ...bases.Emitter) EventStream {
    es := make(EventStream, len(emitters))
    if len(emitters) > 0 {
        go func() {
            for _, emitter := range emitters {
                es <- emitter
            }
            close(es)
        }()
    }
    return es
}
```
The goroutine — and with it the `close` — exists only when the argument list
is nonempty. -/
def New (emitters : List α) : ProducerResult α :=
  if emitters.length > 0 then
    { cap := emitters.length, pushed := emitters, closes := true }
  else
    { cap := emitters.length, pushed := [], closes := false }

/-- One pull result of the external iterator consumed by `From`: the pair
`(emitter, err)` returned by `iter.Next()`, with `none` for a nil error.  An
iterator run is the finite list of its successive pull results; a run that
never fails within the listed pulls leaves the `From` loop still running. -/
abbrev PullResult (α ε : Type) := α × Option ε

/-- The producer loop of `From` in eventstream.go:
```
for {
    emitter, err := iter.Next()
    fmt.Println(emitter, err)
    if err != nil {
        break
    }
    es <- emitter
}
close(es)
```
(the `fmt.Println` is a side-effect-free debug print and is not modelled).
Returns the emitters pushed and whether the loop has broken out and closed the
channel within the given pulls. -/
def fromLoop : List (PullResult α ε) → List α × Bool
  | [] => ([], false)
  | (_, some _) :: _ => ([], true)
  | (em, none) :: rest =>
    let r := fromLoop rest
    (em :: r.1, r.2)

/-- Constructor `From` from eventstream.go: `es := make(EventStream)` — an unbuffered
channel (capacity 0) — then the `fromLoop` producer goroutine. -/
def From (pulls : List (PullResult α ε)) : ProducerResult α :=
  { cap := 0, pushed := (fromLoop pulls).1, closes := (fromLoop pulls).2 }

/-- The channel state a consumer faces after the producer goroutine has run to
completion: everything pushed is available, and the channel is closed exactly
when the producer executed `close`. -/
def producedStream (p : ProducerResult α) : EventStream α :=
  ⟨p.pushed, p.closes⟩

/-- Repeatedly calling `Next` until it either returns the end-of-iterator
error or blocks: the list of emitters delivered, and `true` iff the exhaustion
signal is eventually delivered (rather than the final pull blocking forever on
a never-closed channel). -/
def drainAux (closed : Bool) : List α → List α × Bool
  | [] => ([], closed)
  | e :: rest =>
    let r := drainAux closed rest
    (e :: r.1, r.2)

/-- Draining an event stream: the pull sequence a consumer observes. -/
def drain (s : EventStream α) : List α × Bool :=
  drainAux s.closed s.queue

/-- Sanity link between `drain` and `Next`: on a nonempty queue `Next`
delivers the head and `drain` continues on the rest; on an empty queue `Next`
returns the exhaustion error if closed and blocks otherwise. -/
theorem drain_consistent_with_next (s : EventStream α) :
    (∀ e rest, s.queue = e :: rest →
      s.Next = some ((some e, none), ⟨rest, s.closed⟩) ∧
      drain s = (e :: (drain ⟨rest, s.closed⟩).1, (drain ⟨rest, s.closed⟩).2)) ∧
    (s.queue = [] → s.closed = true →
      s.Next = some ((none, some .endOfIterator), s) ∧ drain s = ([], true)) ∧
    (s.queue = [] → s.closed = false → s.Next = none ∧ drain s = ([], false)) := by
  obtain ⟨q, c⟩ := s
  refine ⟨?_, ?_, ?_⟩
  · rintro e rest rfl
    exact ⟨rfl, rfl⟩
  · rintro rfl rfl
    exact ⟨rfl, rfl⟩
  · rintro rfl rfl
    exact ⟨rfl, rfl⟩

/-- A send `es <- x` on a Go channel when no receiver is waiting completes iff
the buffer has room (`buf.length < cap`), appending `x`; otherwise the sender
blocks, modelled as `none`. -/
def sendStep (cap : Nat) (buf : List α) (x : α) : Option (List α) :=
  if buf.length < cap then some (buf ++ [x]) else none

/-- Performing a sequence of sends with no consumer ever receiving: `some buf`
iff every send completed without blocking. -/
def sendAllNoConsumer (cap : Nat) : List α → List α → Option (List α)
  | buf, [] => some buf
  | buf, x :: rest =>
    match sendStep cap buf x with
    | some buf2 => sendAllNoConsumer cap buf2 rest
    | none => none

theorem drainAux_eq (c : Bool) (l : List α) : drainAux c l = (l, c) := by
  induction l with
  | nil => rfl
  | cons e rest ih => simp [drainAux, ih]

theorem fromLoop_spec (pulls : List (PullResult α ε)) :
    fromLoop pulls =
      ((pulls.takeWhile (fun p => p.2.isNone)).map Prod.fst,
        pulls.any (fun p => p.2.isSome)) := by
  induction pulls with
  | nil => rfl
  | cons p rest ih =>
    obtain ⟨em, err⟩ := p
    cases err <;> simp [fromLoop, ih, List.takeWhile_cons]

theorem sendAllNoConsumer_of_room (cap : Nat) (items : List α) :
    ∀ buf : List α, buf.length + items.length ≤ cap →
      sendAllNoConsumer cap buf items = some (buf ++ items) := by
  induction items with
  | nil => intro buf _; simp [sendAllNoConsumer]
  | cons x rest ih =>
    intro buf h
    have hlt : buf.length < cap := by
      simp only [List.length_cons] at h
      omega
    have h2 : (buf ++ [x]).length + rest.length ≤ cap := by
      rw [List.length_append]
      simp only [List.length_cons, List.length_nil] at h ⊢
      omega
    simp only [sendAllNoConsumer, sendStep, if_pos hlt]
    rw [ih (buf ++ [x]) h2, List.append_assoc]
    rfl

/-- Claim C1 (amended to nonempty argument lists): for every nonempty list of
emitter arguments, the EventStream returned by `New` is closed by its producer
after pushing every argument in order, and a pull sequence yields exactly the
argument emitters in order followed by the exhaustion signal. -/
theorem New_nonempty_pushes_all_then_closes (emitters : List α)
    (h : emitters ≠ []) :
    (New emitters).pushed = emitters ∧
    (New emitters).closes = true ∧
    drain (producedStream (New emitters)) = (emitters, true) := by
  have hlen : 0 < emitters.length := List.length_pos.mpr h
  unfold New
  rw [if_pos hlen]
  refine ⟨rfl, rfl, ?_⟩
  simp [drain, producedStream, drainAux_eq]

/-- Witness for C1's amended theorem at the concrete argument list
`[10, 20, 30]`. -/
theorem New_nonempty_pushes_all_then_closes_witness :
    ([10, 20, 30] : List Nat) ≠ [] ∧
    drain (producedStream (New ([10, 20, 30] : List Nat))) = ([10, 20, 30], true) :=
  ⟨by decide, (New_nonempty_pushes_all_then_closes [10, 20, 30] (by decide)).2.2⟩

/-- Counterexample to claim C1 as stated: for the empty argument list `New`
spawns no producer goroutine, so the stream is never closed — the pull
sequence blocks instead of delivering the exhaustion signal. -/
theorem New_empty_never_closes :
    (New ([] : List Nat)).closes = false ∧
    drain (producedStream (New ([] : List Nat))) ≠ ([], true) ∧
    (producedStream (New ([] : List Nat))).Next = none := by
  refine ⟨rfl, ?_, rfl⟩
  decide

theorem mem_fromLoop_pushed (pulls : List (PullResult α ε)) :
    ∀ x ∈ (fromLoop pulls).1, ∃ p ∈ pulls, p.2 = none ∧ p.1 = x := by
  induction pulls with
  | nil => intro x hx; simp [fromLoop] at hx
  | cons p rest ih =>
    obtain ⟨em, err⟩ := p
    cases err with
    | none =>
      intro x hx
      simp only [fromLoop] at hx
      rcases List.mem_cons.mp hx with rfl | hx2
      · exact ⟨(x, none), List.mem_cons_self _ _, rfl, rfl⟩
      · obtain ⟨q, hq, h1, h2⟩ := ih x hx2
        exact ⟨q, List.mem_cons_of_mem _ hq, h1, h2⟩
    | some e =>
      intro x hx
      simp [fromLoop] at hx

/-- Claim C2: the EventStream returned by `From` contains exactly the emitters
obtained from successful pulls before the iterator's first failing pull, in
pull order, then closes (hypothesis: some pull fails — the claim's "first
failing pull"); the first failure is treated as end-of-sequence, and no
item-level error from the iterator is ever forwarded: every element of the
stream is the emitter of a successful pull. -/
theorem From_forwards_successes_then_closes (pulls : List (PullResult α ε))
    (h : ∃ p ∈ pulls, p.2.isSome) :
    (From pulls).pushed = (pulls.takeWhile (fun p => p.2.isNone)).map Prod.fst ∧
    (From pulls).closes = true ∧
    drain (producedStream (From pulls)) =
      ((pulls.takeWhile (fun p => p.2.isNone)).map Prod.fst, true) ∧
    (∀ x ∈ (From pulls).pushed, ∃ p ∈ pulls, p.2 = none ∧ p.1 = x) := by
  have hany : pulls.any (fun p => p.2.isSome) = true := by
    rw [List.any_eq_true]
    exact h
  have hpush : (From pulls).pushed
      = (pulls.takeWhile (fun p => p.2.isNone)).map Prod.fst := by
    simp [From, fromLoop_spec]
  have hclose : (From pulls).closes = true := by
    simp [From, fromLoop_spec, hany]
  refine ⟨hpush, hclose, ?_, ?_⟩
  · simp [drain, producedStream, drainAux_eq, hpush, hclose]
  · exact mem_fromLoop_pushed pulls

/-- Witness for C2 at the concrete iterator run
`[(1, ok), (2, ok), (3, fail)]`: the stream delivers `1, 2` then closes. -/
theorem From_forwards_successes_then_closes_witness :
    (∃ p ∈ ([(1, none), (2, none), (3, some 7)] : List (PullResult Nat Nat)),
      p.2.isSome) ∧
    drain (producedStream
        (From ([(1, none), (2, none), (3, some 7)] : List (PullResult Nat Nat))))
      = ([1, 2], true) := by
  have h : ∃ p ∈ ([(1, none), (2, none), (3, some 7)] : List (PullResult Nat Nat)),
      p.2.isSome := ⟨(3, some 7), by decide, by decide⟩
  refine ⟨h, ?_⟩
  rw [(From_forwards_successes_then_closes _ h).2.2.1]
  decide

/-- Claim C3: `Next` returns a non-nil emitter with nil error whenever one is
available, returns nil emitter with the end-of-iterator error exactly when the
stream is closed and drained, and never returns any other error. -/
theorem Next_spec (s : EventStream α) :
    (∀ e rest, s.queue = e :: rest →
      s.Next = some ((some e, none), ⟨rest, s.closed⟩)) ∧
    ((∃ s2, s.Next = some ((none, some .endOfIterator), s2)) ↔
      s.queue = [] ∧ s.closed = true) ∧
    (∀ a err s2, s.Next = some ((a, some err), s2) →
      err = .endOfIterator ∧ a = none) := by
  obtain ⟨q, c⟩ := s
  refine ⟨?_, ?_, ?_⟩
  · rintro e rest rfl
    rfl
  · cases q with
    | nil => cases c <;> simp [EventStream.Next]
    | cons e rest => simp [EventStream.Next]
  · intro a err s2 h
    refine ⟨by cases err; rfl, ?_⟩
    cases q with
    | nil =>
      cases c with
      | true =>
        simp only [EventStream.Next] at h
        rw [if_pos trivial] at h
        rw [Option.some.injEq, Prod.mk.injEq, Prod.mk.injEq] at h
        exact h.1.1.symm
      | false =>
        simp only [EventStream.Next] at h
        rw [if_neg (by simp)] at h
        cases h
    | cons e rest =>
      simp [EventStream.Next] at h

/-- Witness for C3 at concrete streams: a stream with queue `[5]` yields the
emitter with nil error; closed-and-drained yields the end-of-iterator error. -/
theorem Next_spec_witness :
    (EventStream.Next ⟨[5], true⟩ : Option ((Option Nat × Option StreamError) × EventStream Nat))
      = some ((some 5, none), ⟨[], true⟩) ∧
    (EventStream.Next ⟨[], true⟩ : Option ((Option Nat × Option StreamError) × EventStream Nat))
      = some ((none, some .endOfIterator), ⟨[], true⟩) :=
  ⟨(Next_spec (⟨[5], true⟩ : EventStream Nat)).1 5 [] rfl, by decide⟩

/-- Claim C9: `New` allocates its channel with capacity exactly the number of
emitter arguments, so its producer completes every push and the close with no
consumer pulling; `From` allocates an unbuffered channel (capacity zero), on
which no send can complete without a waiting receiver. -/
theorem channel_capacities (emitters : List α) (pulls : List (PullResult α ε)) :
    (New emitters).cap = emitters.length ∧
    sendAllNoConsumer (New emitters).cap [] (New emitters).pushed
      = some (New emitters).pushed ∧
    (From pulls).cap = 0 ∧
    (∀ (buf : List α) (x : α), sendStep 0 buf x = none) := by
  refine ⟨?_, ?_, rfl, ?_⟩
  · unfold New
    split <;> rfl
  · have hcap : (New emitters).cap = emitters.length := by
      unfold New; split <;> rfl
    have hpush : (New emitters).pushed.length ≤ emitters.length := by
      unfold New
      split
      · exact le_rfl
      · simp
    rw [hcap]
    have := sendAllNoConsumer_of_room emitters.length (New emitters).pushed []
      (by simpa using hpush)
    simpa using this
  · intro buf x
    simp [sendStep]

/-- Witness for C9 at `New [4, 5]` and `From [(9, fail)]`. -/
theorem channel_capacities_witness :
    (New ([4, 5] : List Nat)).cap = 2 ∧
    sendAllNoConsumer 2 [] ([4, 5] : List Nat) = some [4, 5] ∧
    (From ([(9, some 0)] : List (PullResult Nat Nat))).cap = 0 :=
  ⟨(channel_capacities ([4, 5] : List Nat)
      ([(9, some 0)] : List (PullResult Nat Nat))).1,
    by decide,
    (channel_capacities ([4, 5] : List Nat)
      ([(9, some 0)] : List (PullResult Nat Nat))).2.2.1⟩

/-- Claim C10: the emitter returned alongside a failing pull is discarded:
when the iterator's pulls are some all-successful prefix followed by a failing
pull, the stream contains exactly the prefix's emitters — the failing pull's
emitter is not appended, and (when distinct from the prefix emitters) never
appears in the stream. -/
theorem From_discards_failing_pull_emitter (pre : List (PullResult α ε))
    (a : α) (e : ε) (rest : List (PullResult α ε))
    (hpre : ∀ p ∈ pre, p.2 = none) :
    (From (pre ++ (a, some e) :: rest)).pushed = pre.map Prod.fst ∧
    (a ∉ pre.map Prod.fst →
      a ∉ (From (pre ++ (a, some e) :: rest)).pushed) := by
  have hpush : (From (pre ++ (a, some e) :: rest)).pushed = pre.map Prod.fst := by
    simp only [From, fromLoop_spec]
    rw [List.takeWhile_append_of_pos]
    · simp [List.takeWhile]
    · intro p hp
      simp [hpre p hp]
  exact ⟨hpush, fun hnot => by rw [hpush]; exact hnot⟩

/-- Witness for C10: iterator run `[(1, ok), (2, fail with emitter 2)]` — the
non-nil emitter `2` accompanying the failing pull is absent from the stream. -/
theorem From_discards_failing_pull_emitter_witness :
    (From ([(1, none), (2, some 9)] : List (PullResult Nat Nat))).pushed = [1] ∧
    (2 : Nat) ∉ (From ([(1, none), (2, some 9)] : List (PullResult Nat Nat))).pushed := by
  have h := From_discards_failing_pull_emitter
    ([(1, none)] : List (PullResult Nat Nat)) 2 9 [] (by decide)
  exact ⟨h.1, h.2 (by decide)⟩

/-!
Observable layer.  The `observable` package's implementation is not among the
repository's sources — only its test file is — so the definitions below are
modelled from the specification (§3, §4.3, §4.4, §7), each marked
`Modelled from the spec:`.  The test file is used as concrete evidence where
its assertions bear on a claim.
-/

/-- Modelled from the spec: an Emitter as the dispatch loop sees it through
`Emit()` — a tagged union holding exactly one of a value or an error (§3);
the Observable implementation that consumes it is absent from the sources. -/
inductive GoEmitter (α ε : Type) where
  | value : α → GoEmitter α ε
  | error : ε → GoEmitter α ε
deriving DecidableEq, Repr

/-- Modelled from the spec: the observer's three independent optional callback
slots (§3), recorded by presence — an unset slot silently absorbs its event;
the field names follow the test file's `observer.Observer` literals
(`NextHandler`, `ErrHandler`, `DoneHandler`). -/
structure Observer where
  nextHandler : Bool
  errHandler : Bool
  doneHandler : Bool
deriving DecidableEq, Repr

/-- One observer-callback invocation, in the order the dispatch loop fires
them. -/
inductive CbEvent (α ε : Type) where
  | onNext : α → CbEvent α ε
  | onError : ε → CbEvent α ε
  | onDone : CbEvent α ε
deriving DecidableEq, Repr

/-- Terminal state of a subscription's dispatch loop (§4.4) when it is never
disposed: `completed` (stream exhausted) or `errored` (error emitter
delivered). -/
inductive SubState where
  | completed
  | errored
deriving DecidableEq, Repr

/-- Modelled from the spec: the dispatch loop spawned by `Subscribe` (§4.3
step 3), for a subscription that is never disposed, run against the emitter
sequence of a completed producer (stream closed after the listed emitters).
Each iteration pulls once: a failing pull fires `onDone` if present and
terminates Completed; an error-tagged emitter fires `onError` if present and
terminates Errored with no further pull; a value-tagged emitter fires `onNext`
if present and loops.  Returns the callback events fired in order, the
terminal state, and the total number of pulls performed. -/
def dispatch (ob : Observer) :
    List (GoEmitter α ε) → List (CbEvent α ε) × SubState × Nat
  | [] => ((if ob.doneHandler then [.onDone] else []), .completed, 1)
  | .error e :: _ => ((if ob.errHandler then [.onError e] else []), .errored, 1)
  | .value v :: rest =>
    let r := dispatch ob rest
    ((if ob.nextHandler then [.onNext v] else []) ++ r.1, r.2.1, r.2.2 + 1)

/-- Modelled from the spec: the `InvalidObserver` error returned synchronously
by `Subscribe` (§7). -/
inductive SubscribeError where
  | invalidObserver
deriving DecidableEq, Repr

/-- Modelled from the spec: the live handle returned by `Subscribe` (§4.4). -/
structure Subscription where
  active : Bool
deriving DecidableEq, Repr

/-- Result of a `Subscribe` call: the Go return pair `(Subscription, error)`
plus whether a dispatch task was spawned. -/
structure SubscribeResult where
  sub : Option Subscription
  err : Option SubscribeError
  taskSpawned : Bool
deriving DecidableEq, Repr

/-- Modelled from the spec: `Subscribe` validation (§4.3 steps 1–2, §7) —
an observer with no callback slot set fails synchronously with
`InvalidObserver` and no task is spawned; otherwise a dispatch task is spawned
and a live Subscription is returned with a nil error. -/
def Subscribe (ob : Observer) : SubscribeResult :=
  if ob.nextHandler || ob.errHandler || ob.doneHandler then
    { sub := some ⟨true⟩, err := none, taskSpawned := true }
  else
    { sub := none, err := some .invalidObserver, taskSpawned := false }

/-- Modelled from the spec: the producer loop of `Range(start, end)` (§4.3) —
`n` is the remaining iteration count, so `rangeGo start n` is what
`for i := start; i < start+n; i++ { push i }` emits. -/
def rangeGo (start : Int) : Nat → List Int
  | 0 => []
  | n + 1 => start :: rangeGo (start + 1) n

/-- Modelled from the spec: `Range(start, end)` emits `start, start+1, …,
end-1` (end exclusive) then closes; when `end ≤ start` the iteration count is
zero and it closes immediately with no emission.  The buffer is sized to the
known item count, the finite-operator policy of §5. -/
def Range (start stop : Int) : ProducerResult Int :=
  { cap := (stop - start).toNat,
    pushed := rangeGo start (stop - start).toNat,
    closes := true }

/-- Modelled from the spec: a `Start` directive observed operationally — the
zero-argument producer call runs for `duration` (its completion time) and
yields the one emitter `result` (§4.3). -/
structure Directive (α : Type) where
  duration : Nat
  result : α
deriving DecidableEq, Repr

/-- Insertion of one directive into a completion-ordered list.  A tie in
completion time is a scheduler race (§4.3, §9); this model resolves ties in
favour of the earlier argument. -/
def insertByCompletion (d : Directive α) :
    List (Directive α) → List (Directive α)
  | [] => [d]
  | e :: rest =>
    if d.duration ≤ e.duration then d :: e :: rest
    else e :: insertByCompletion d rest

/-- Modelled from the spec: the completion order of `Start`'s concurrent
directive tasks — the argument list reordered by completion time. -/
def completionOrder : List (Directive α) → List (Directive α)
  | [] => []
  | d :: rest => insertByCompletion d (completionOrder rest)

/-- Modelled from the spec: `Start(directives...)` runs each of the N
zero-argument directives in its own concurrent task; the fan-in forwards each
directive's single emitter as its task completes — completion order, not
argument order — and the stream closes once all N have completed (§4.3). -/
def Start (ds : List (Directive α)) : ProducerResult α :=
  { cap := ds.length,
    pushed := (completionOrder ds).map Directive.result,
    closes := true }

theorem insertByCompletion_perm (d : Directive α) (l : List (Directive α)) :
    (insertByCompletion d l).Perm (d :: l) := by
  induction l with
  | nil => exact List.Perm.refl _
  | cons e rest ih =>
    by_cases h : d.duration ≤ e.duration
    · simp [insertByCompletion, h]
    · simp only [insertByCompletion, if_neg h]
      exact (ih.cons e).trans (List.Perm.swap d e rest)

theorem completionOrder_perm (ds : List (Directive α)) :
    (completionOrder ds).Perm ds := by
  induction ds with
  | nil => exact List.Perm.refl _
  | cons d rest ih =>
    exact (insertByCompletion_perm d (completionOrder rest)).trans (ih.cons d)

theorem mem_insertByCompletion {x d : Directive α} {l : List (Directive α)}
    (h : x ∈ insertByCompletion d l) : x = d ∨ x ∈ l :=
  List.mem_cons.mp ((insertByCompletion_perm d l).mem_iff.mp h)

theorem insertByCompletion_pairwise (d : Directive α) (l : List (Directive α))
    (h : l.Pairwise (fun a b => a.duration ≤ b.duration)) :
    (insertByCompletion d l).Pairwise (fun a b => a.duration ≤ b.duration) := by
  induction l with
  | nil => simp [insertByCompletion]
  | cons e rest ih =>
    rw [List.pairwise_cons] at h
    obtain ⟨he, hrest⟩ := h
    by_cases hd : d.duration ≤ e.duration
    · simp only [insertByCompletion, if_pos hd]
      refine List.Pairwise.cons ?_ (List.Pairwise.cons he hrest)
      intro x hx
      rcases List.mem_cons.mp hx with rfl | hx2
      · exact hd
      · exact Nat.le_trans hd (he x hx2)
    · simp only [insertByCompletion, if_neg hd]
      refine List.Pairwise.cons ?_ (ih hrest)
      intro x hx
      rcases mem_insertByCompletion hx with rfl | hx2
      · exact Nat.le_of_not_le hd
      · exact he x hx2

theorem completionOrder_pairwise (ds : List (Directive α)) :
    (completionOrder ds).Pairwise (fun a b => a.duration ≤ b.duration) := by
  induction ds with
  | nil => exact List.Pairwise.nil
  | cons d rest ih => exact insertByCompletion_pairwise d _ ih

theorem rangeGo_length (n : Nat) : ∀ start : Int, (rangeGo start n).length = n := by
  induction n with
  | zero => intro s; rfl
  | succ n ih => intro s; simp [rangeGo, ih]

theorem rangeGo_getElem? (n : Nat) :
    ∀ (start : Int) (i : Nat), i < n → (rangeGo start n)[i]? = some (start + i) := by
  induction n with
  | zero => intro s i h; omega
  | succ n ih =>
    intro s i h
    cases i with
    | zero => simp [rangeGo]
    | succ i =>
      have hi : i < n := by omega
      simp only [rangeGo, List.getElem?_cons_succ]
      rw [ih (s + 1) i hi]
      congr 1
      push_cast
      ring

/-- Claim C4, evaluated at the failing input of
`TestStartMethodWithFakeExternalCalls`: on the completion-ordered emitters
200, 404, 500 followed by the error emitter, the specified dispatch loop fires
onNext(200), onNext(404), onNext(500), onError and terminates in the Errored
state after exactly 4 pulls — in particular onDone is never fired.  The
repository's test instead asserts that the DoneHandler also fired after the
error (its 999 end-marker as the 4th collected response), so the code's own
test contradicts the claimed terminal-error behaviour. -/
theorem dispatch_error_is_terminal_at_test_input :
    dispatch (⟨true, true, true⟩ : Observer)
        [GoEmitter.value (200 : Nat), GoEmitter.value 404, GoEmitter.value 500,
          (GoEmitter.error (1 : Nat))] =
      ([CbEvent.onNext 200, CbEvent.onNext 404, CbEvent.onNext 500,
        CbEvent.onError 1], SubState.errored, 4) ∧
    CbEvent.onDone ∉ (dispatch (⟨true, true, true⟩ : Observer)
        [GoEmitter.value (200 : Nat), GoEmitter.value 404, GoEmitter.value 500,
          (GoEmitter.error (1 : Nat))]).1 := by
  exact ⟨rfl, by decide⟩

/-- Claim C5: an observer with no callback slot set makes `Subscribe` fail
synchronously with `InvalidObserver` and spawn no dispatch task; an observer
with at least one slot set gets a nil error and a non-nil Subscription. -/
theorem Subscribe_validates_observer (ob : Observer) :
    ((ob.nextHandler = false ∧ ob.errHandler = false ∧ ob.doneHandler = false) →
      (Subscribe ob).err = some SubscribeError.invalidObserver ∧
      (Subscribe ob).taskSpawned = false) ∧
    ((ob.nextHandler = true ∨ ob.errHandler = true ∨ ob.doneHandler = true) →
      (Subscribe ob).err = none ∧ (Subscribe ob).sub ≠ none) := by
  obtain ⟨n, e, d⟩ := ob
  cases n <;> cases e <;> cases d <;> simp [Subscribe]

/-- Witness for C5: the all-unset observer is rejected with no task spawned;
an observer with only a NextHandler gets a nil error. -/
theorem Subscribe_validates_observer_witness :
    (Subscribe ⟨false, false, false⟩).err = some SubscribeError.invalidObserver ∧
    (Subscribe ⟨false, false, false⟩).taskSpawned = false ∧
    (Subscribe ⟨true, false, false⟩).err = none :=
  ⟨((Subscribe_validates_observer ⟨false, false, false⟩).1 ⟨rfl, rfl, rfl⟩).1,
    ((Subscribe_validates_observer ⟨false, false, false⟩).1 ⟨rfl, rfl, rfl⟩).2,
    ((Subscribe_validates_observer ⟨true, false, false⟩).2 (Or.inl rfl)).1⟩

/-- Claim C6: `Range(start, end)` closes, emits exactly `(end - start).toNat`
values, the i-th emitted value is `start + i` (so the emissions are
`start, start+1, …, end-1` in increasing order), and when `end ≤ start` it
emits nothing. -/
theorem Range_spec (start stop : Int) :
    (Range start stop).closes = true ∧
    (Range start stop).pushed.length = (stop - start).toNat ∧
    (∀ i : Nat, i < (stop - start).toNat →
      (Range start stop).pushed[i]? = some (start + i)) ∧
    (stop ≤ start → (Range start stop).pushed = []) := by
  refine ⟨rfl, rangeGo_length _ _, fun i h => rangeGo_getElem? _ _ i h, fun h => ?_⟩
  have hz : (stop - start).toNat = 0 := by omega
  simp only [Range, hz]
  rfl

/-- Witness for C6 at the spec's examples: `Range(1,5)` emits `1,2,3,4`;
`Range(5,5)` emits nothing. -/
theorem Range_spec_witness :
    (Range 1 5).pushed = [1, 2, 3, 4] ∧ (Range 5 5).pushed = [] :=
  ⟨by decide, (Range_spec 5 5).2.2.2 (by decide)⟩

/-- Claim C7: `Start` over N directives emits exactly N emitters — one per
directive, a permutation of the directives' results — in completion order
(nondecreasing completion time, hence not argument order), and closes only
after all N directives have completed. -/
theorem Start_spec (ds : List (Directive α)) :
    (Start ds).pushed.length = ds.length ∧
    (Start ds).pushed.Perm (ds.map Directive.result) ∧
    (Start ds).pushed = (completionOrder ds).map Directive.result ∧
    (completionOrder ds).Pairwise (fun a b => a.duration ≤ b.duration) ∧
    (Start ds).closes = true := by
  refine ⟨?_, ?_, rfl, completionOrder_pairwise ds, rfl⟩
  · simp [Start, (completionOrder_perm ds).length_eq]
  · exact (completionOrder_perm ds).map Directive.result

/-- Witness for C7 at the spec's example (d1 finishing in 30ms, d2 in 10ms,
d3 in 20ms): the emitted order is d2's, d3's, d1's result, the same for a
different call-site argument order, followed by close. -/
theorem Start_spec_witness :
    (Start ([⟨30, 1⟩, ⟨10, 2⟩, ⟨20, 3⟩] : List (Directive Nat))).pushed
      = [2, 3, 1] ∧
    (Start ([⟨10, 2⟩, ⟨20, 3⟩, ⟨30, 1⟩] : List (Directive Nat))).pushed
      = [2, 3, 1] ∧
    (Start ([⟨30, 1⟩, ⟨10, 2⟩, ⟨20, 3⟩] : List (Directive Nat))).closes = true :=
  ⟨by decide, by decide,
    (Start_spec ([⟨30, 1⟩, ⟨10, 2⟩, ⟨20, 3⟩] : List (Directive Nat))).2.2.2.2⟩

end Grx
